import Mathlib

/-!
# Verification of the `BaseComponent` data-binding custom element

A shallow embedding of `src/components/base-component.js`: a base class for
custom elements providing two-way data binding between `data-` attributes and
shadow-DOM nodes whose `name` attribute is `bind-<attributeName>`, plus a
subscriber-notification chain (`observeAttribute` / the extended
`attributeChangedCallback`).

The DOM state is modelled explicitly: a component instance (`Element`) holds
the flattened list of shadow-root nodes (in document order), its `data-`
attribute map (`dataset`), its lazily created subscriber registry, and its
declared observed-attribute list.  Instances can subscribe to each other, so
the collection of live instances is a `World` (a list of elements indexed by
position) and `attributeChangedCallback` is a world transformer.  Recursive
subscriber fan-out is bounded by an explicit `fuel` argument (the JavaScript
original simply recurses on the call stack); every theorem about one call
takes a positive fuel.  The callback also returns a trace of `Event`s (DOM
writes and subscriber notifications) used to state the ordering guarantees.
-/

namespace BaseComponent

/-- A JavaScript primitive value as it flows through the callback: `undefined`,
`null`, or a string.  `attributeChangedCallback` compares old and new value
with `===`, which on this fragment is exactly decidable equality (`undefined`
and `null` are distinct, strings compare by value). -/
inductive JSVal where
  | undef : JSVal
  | null : JSVal
  | str : String → JSVal
deriving DecidableEq, Repr

/-- A DOM element inside the shadow root: its `name` attribute (absent or a
string), its `textContent`, and its `value` property.  The callback assigns
`newValue` to the latter two fields of every matching node. -/
structure Node where
  name : Option String
  textContent : JSVal
  val : JSVal
deriving DecidableEq, Repr

/-- One `BaseComponent` instance: the cloned template content in its shadow
root (flattened, document order), the element's `data-` attributes (stored by
unprefixed key, as in `this.dataset`), the subscriber registry
(`this.subscribers`, `none` until `observeAttribute` first creates it; values
are indices of subscriber elements in the world), and the subclass's declared
`observedAttributes`. -/
structure Element where
  shadowRoot : List Node
  dataset : List (String × String)
  subscribers : Option (List (String × List Nat))
  observed : List String
deriving DecidableEq, Repr

/-- The collection of live component instances; an element is identified by
its index. -/
abbrev World := List Element

/-- Trace events emitted by one `attributeChangedCallback` run:
`write e i v` records the DOM write of `v` into node `i` of element `e`;
`notify s nm o v src` records element `src` invoking subscriber `s`'s
callback with `(nm, o, v, src)`. -/
inductive Event where
  | write : Nat → Nat → JSVal → Event
  | notify : Nat → String → JSVal → JSVal → Nat → Event
deriving DecidableEq, Repr

/-- Association-list lookup (JavaScript object property read). -/
def assocLookup {α : Type} : List (String × α) → String → Option α
  | [], _ => none
  | (k, v) :: rest, key => if k = key then some v else assocLookup rest key

/-- Association-list update (JavaScript object property write). -/
def assocSet {α : Type} : List (String × α) → String → α → List (String × α)
  | [], key, v => [(key, v)]
  | (k, w) :: rest, key, v =>
      if k = key then (key, v) :: rest else (k, w) :: assocSet rest key v

/-- The body of the `querySelectorAll('[name="bind-<nm>"]').forEach` loop:
a node whose `name` attribute equals `bind-<nm>` gets `newValue` written to
its `textContent` and its `value` property; any other node is untouched. -/
def updateNode (nm : String) (v : JSVal) (n : Node) : Node :=
  if n.name = some ("bind-" ++ nm) then { n with textContent := v, val := v } else n

/-- The effect of the DOM-update phase of one callback on an element: every
matching node of its shadow root is updated. -/
def syncEl (nm : String) (v : JSVal) (el : Element) : Element :=
  { el with shadowRoot := el.shadowRoot.map (updateNode nm v) }

/-- The trace of DOM writes performed by the `forEach` loop, in document
order; `i` is the index of the first node of the remaining list. -/
def domWrites (id : Nat) (nm : String) (v : JSVal) : Nat → List Node → List Event
  | _, [] => []
  | i, n :: rest =>
      if n.name = some ("bind-" ++ nm) then
        Event.write id i v :: domWrites id nm v (i + 1) rest
      else domWrites id nm v (i + 1) rest

/-- The `subscribers[name].forEach(subscriber => subscriber.attributeChangedCallback(...))`
loop: visit the registered subscribers left to right, invoking `f` (the
recursive callback) on each, threading the world and recording for each
subscriber a `notify` event followed by that subscriber's own trace. -/
def notifyList (f : World → Nat → World × List Event) (nm : String) (o v : JSVal)
    (src : Nat) : World → List Nat → World × List Event
  | w, [] => (w, [])
  | w, s :: rest =>
      let r1 := f w s
      let r2 := notifyList f nm o v src r1.1 rest
      (r2.1, (Event.notify s nm o v src :: r1.2) ++ r2.2)

/-- `attributeChangedCallback(name, oldValue, newValue, source)` from the
source, as a world transformer producing an event trace.  It returns
immediately when `newValue === oldValue`; otherwise it writes `newValue` into
every shadow-root node named `bind-<name>`, and then, if a subscriber list is
registered for `name`, synchronously invokes each subscriber's callback in
registration order with the same `(name, oldValue, newValue)` and this element
as `source`.  The `source` parameter itself does not influence behaviour (in
the source it only feeds a commented-out log line).  `fuel` bounds the
recursive fan-out depth. -/
def attributeChangedCallback :
    Nat → World → Nat → String → JSVal → JSVal → Option Nat → World × List Event
  | 0, w, _, _, _, _, _ => (w, [])
  | fuel + 1, w, self, nm, oldValue, newValue, _ =>
      if newValue = oldValue then (w, [])
      else
        match w.get? self with
        | none => (w, [])
        | some el =>
            let evs := domWrites self nm newValue 0 el.shadowRoot
            let w1 := w.set self (syncEl nm newValue el)
            match el.subscribers with
            | none => (w1, evs)
            | some m =>
                match assocLookup m nm with
                | none => (w1, evs)
                | some subs =>
                    let r := notifyList
                      (fun w2 s => attributeChangedCallback fuel w2 s nm oldValue newValue (some self))
                      nm oldValue newValue self w1 subs
                    (r.1, evs ++ r.2)

/-- `observeAttribute(attributeName, subscriber)`: create the registry and the
per-attribute list when absent, push the subscriber onto the end of that list,
and return the (updated) element itself so calls can be chained. -/
def observeAttribute (e : Element) (attributeName : String) (subscriber : Nat) : Element :=
  let m := match e.subscribers with
    | none => []
    | some m => m
  let l := match assocLookup m attributeName with
    | none => []
    | some l => l
  { e with subscribers := some (assocSet m attributeName (l ++ [subscriber])) }

/-- The subscriber list currently registered for `nm` (empty when the registry
or the entry is absent). -/
def subsOf (e : Element) (nm : String) : List Nat :=
  match e.subscribers with
  | none => []
  | some m =>
      match assocLookup m nm with
      | none => []
      | some l => l

/-- `this.dataset[k] = v`: write the `data-<k>` attribute. -/
def setDataset (e : Element) (k v : String) : Element :=
  { e with dataset := assocSet e.dataset k v }

/-- The character class `[a-z]` of the reflection regex. -/
def isLowerAZ (c : Char) : Bool := decide ('a' ≤ c) && decide (c ≤ 'z')

/-- `name.match(/^(?:bind-data-)([a-z]*)$/)`: `some suffix` (the capture
group, possibly empty) when the whole string is `bind-data-` followed by
lowercase letters only, `none` otherwise. -/
def bindSuffix (s : String) : Option String :=
  if s.data.take 10 = "bind-data-".data then
    if (s.data.drop 10).all isLowerAZ then some (String.mk (s.data.drop 10)) else none
  else none

/-- Modelled from the spec: the host runtime's attribute-observation delivery
("Attribute-change delivery", external interfaces).  The source file only
assigns `this.dataset[...]`; the browser runtime is the external collaborator
that, when an observed attribute's value is written, synchronously invokes
`attributeChangedCallback` with the attribute name, the previous value
(`null` when the attribute was absent) and the new value.  Writing a
non-observed attribute invokes nothing. -/
def runtimeSetData (fuel : Nat) (w : World) (id : Nat) (k v : String) : World :=
  match w.get? id with
  | none => w
  | some el =>
      let oldV : JSVal := match assocLookup el.dataset k with
        | none => JSVal.null
        | some s => JSVal.str s
      let w1 := w.set id (setDataset el k v)
      if ("data-" ++ k) ∈ el.observed then
        (attributeChangedCallback fuel w1 id ("data-" ++ k) oldV (JSVal.str v) none).1
      else w1

/-- The `change` listener registered on the shadow root in the constructor:
given the originating element's `name` property and current `value`, return
silently when the name is absent or empty (`!event.target.name`), when the
reflection regex does not match, or when its capture group is empty
(`!match[1]`); otherwise write the value into the `data-<suffix>` attribute
(which the runtime then delivers to `attributeChangedCallback` when that
attribute is observed). -/
def handleChange (fuel : Nat) (w : World) (id : Nat) (tName : Option String)
    (tValue : String) : World :=
  match tName with
  | none => w
  | some s =>
      if s = "" then w
      else
        match bindSuffix s with
        | none => w
        | some suf => if suf = "" then w else runtimeSetData fuel w id suf tValue

/-- The element as it stands right after `attachShadow` and the template
clone: shadow root populated, no `data-` attributes, no subscriber registry. -/
def initElement (tmpl : List Node) (observed : List String) : Element :=
  { shadowRoot := tmpl, dataset := [], subscribers := none, observed := observed }

/-- One iteration of the constructor's `for (const key in config)` loop:
`this.dataset[key] = config[key]` followed by the explicit
`this.attributeChangedCallback('data-' + key, undefined, config[key])`
(no `source` argument).  The explicit call is made precisely because native
attribute-observation delivery during construction is not relied upon, so no
runtime delivery is modelled here. -/
def constructStep (fuel : Nat) (id : Nat) (w : World) (kv : String × String) : World :=
  match w.get? id with
  | none => w
  | some el =>
      let w1 := w.set id (setDataset el kv.1 kv.2)
      (attributeChangedCallback fuel w1 id ("data-" ++ kv.1) JSVal.undef
        (JSVal.str kv.2) none).1

/-- The constructor: append the freshly initialised element (index
`w.length`) to the world, then run the configuration loop over it. -/
def constructElement (fuel : Nat) (w : World) (tmpl : List Node) (observed : List String)
    (config : List (String × String)) : World :=
  config.foldl (constructStep fuel w.length) (w ++ [initElement tmpl observed])

/-- The pure per-element effect of the configuration loop (each key sets the
attribute and syncs its bound nodes); used to reason about `constructElement`,
whose explicit callback calls cannot fan out because the fresh element has no
subscribers. -/
def applyConfig (config : List (String × String)) (el : Element) : Element :=
  config.foldl
    (fun e kv => syncEl ("data-" ++ kv.1) (JSVal.str kv.2) (setDataset e kv.1 kv.2)) el

/-- `DFVisit fuel nm o v src w subs tr w2`: starting from world `w`, the
subscribers `subs` are visited depth-first in list order; each visit is
recorded as a `notify` event carrying `(nm, o, v, src)` and is immediately
followed by the complete trace of that subscriber's own
`attributeChangedCallback` run (at fuel `fuel`), whose resulting world is
threaded into the next visit; `tr` is the full trace and `w2` the final
world. -/
inductive DFVisit (fuel : Nat) (nm : String) (o v : JSVal) (src : Nat) :
    World → List Nat → List Event → World → Prop where
  | nil (w : World) : DFVisit fuel nm o v src w [] [] w
  | cons (w w1 w2 : World) (s : Nat) (rest : List Nat) (tr tail : List Event) :
      attributeChangedCallback fuel w s nm o v (some src) = (w1, tr) →
      DFVisit fuel nm o v src w1 rest tail w2 →
      DFVisit fuel nm o v src w (s :: rest) (Event.notify s nm o v src :: (tr ++ tail)) w2

/-- `Reaches nm v w w2`: every element of `w2` is the corresponding element of
`w`, either untouched or with its `bind-<nm>` nodes synced to `v` — the only
two per-element outcomes of a callback run for attribute `nm`, since the whole
recursive fan-out keeps passing the same name and new value along. -/
def Reaches (nm : String) (v : JSVal) (w w2 : World) : Prop :=
  ∀ i : Nat, w2.get? i = w.get? i ∨ w2.get? i = (w.get? i).map (syncEl nm v)

/-- The binding established for key `k` with value `v`: the `data-<k>`
attribute reads `v` and every node named `bind-data-<k>` displays `v`. -/
def GoodBind (k v : String) (el : Element) : Prop :=
  assocLookup el.dataset k = some v ∧
  ∀ n ∈ el.shadowRoot, n.name = some ("bind-data-" ++ k) →
    n.textContent = JSVal.str v ∧ n.val = JSVal.str v

/-! ### Concrete fixtures used to instantiate the theorems -/

/-- A bound node (as produced by the example template's
`<h1 name="bind-data-spam">`). -/
def demoNodeA : Node :=
  { name := some "bind-data-spam", textContent := JSVal.str "old", val := JSVal.undef }

/-- An unbound node. -/
def demoNodeB : Node :=
  { name := some "title", textContent := JSVal.str "hello", val := JSVal.undef }

/-- A component with one bound and one unbound node, observing `data-spam`. -/
def demoEl : Element :=
  { shadowRoot := [demoNodeA, demoNodeB], dataset := [], subscribers := none,
    observed := ["data-spam"] }

/-- A world holding just `demoEl`. -/
def demoWorld : World := [demoEl]

/-- A subscriber component with an empty shadow root. -/
def chainSub : Element :=
  { shadowRoot := [], dataset := [], subscribers := none, observed := [] }

/-- A node bound to `data-x`. -/
def chainNode : Node :=
  { name := some "bind-data-x", textContent := JSVal.str "old", val := JSVal.undef }

/-- A publisher with one bound node and two subscribers (elements 1 and 2)
registered for `data-x`, in that order. -/
def chainPub : Element :=
  { shadowRoot := [chainNode], dataset := [],
    subscribers := some [("data-x", [1, 2])], observed := ["data-x"] }

/-- Publisher at index 0, subscribers at indices 1 and 2. -/
def chainWorld : World := [chainPub, chainSub, chainSub]

/-- A node named `bind-somethingElse`. -/
def oddNode : Node :=
  { name := some "bind-somethingElse", textContent := JSVal.str "old", val := JSVal.undef }

/-- A component whose subclass declares the non-`data-` observed attribute
`somethingElse` and whose template carries a node named
`bind-somethingElse`. -/
def oddEl : Element :=
  { shadowRoot := [oddNode], dataset := [], subscribers := none,
    observed := ["somethingElse"] }

/-- A world holding just `oddEl`. -/
def oddWorld : World := [oddEl]

/-- A template with one bound node per configured key, for the construction
example `{spam: "1", eggs: "2"}`. -/
def demoTmpl : List Node :=
  [{ name := some "bind-data-spam", textContent := JSVal.str "", val := JSVal.undef },
   { name := some "bind-data-eggs", textContent := JSVal.str "", val := JSVal.undef }]

/-! ## List and association-list lemmas -/

theorem get?_some_lt {α : Type} : ∀ (l : List α) (n : Nat) (a : α),
    l.get? n = some a → n < l.length
  | [], n, a, h => by simp [List.get?] at h
  | _ :: _, 0, _, _ => Nat.succ_pos _
  | _ :: xs, n + 1, a, h => Nat.succ_lt_succ (get?_some_lt xs n a h)

theorem get?_set_self {α : Type} : ∀ (l : List α) (i : Nat) (a : α), i < l.length →
    (l.set i a).get? i = some a
  | [], _, _, h => absurd h (by simp)
  | _ :: _, 0, _, _ => rfl
  | _ :: xs, i + 1, a, h => get?_set_self xs i a (Nat.lt_of_succ_lt_succ h)

theorem get?_set_ne {α : Type} : ∀ (l : List α) (i j : Nat) (a : α), i ≠ j →
    (l.set i a).get? j = l.get? j
  | [], _, _, _, _ => rfl
  | _ :: _, 0, 0, _, h => absurd rfl h
  | _ :: _, 0, _ + 1, _, _ => rfl
  | _ :: _, _ + 1, 0, _, _ => rfl
  | _ :: xs, i + 1, j + 1, a, h =>
      get?_set_ne xs i j a (fun hh => h (congrArg Nat.succ hh))

theorem get?_concat_len {α : Type} : ∀ (l : List α) (a : α), (l ++ [a]).get? l.length = some a
  | [], _ => rfl
  | _ :: xs, a => get?_concat_len xs a

theorem get?_map_eq {α β : Type} (f : α → β) : ∀ (l : List α) (n : Nat),
    (l.map f).get? n = (l.get? n).map f
  | [], n => by cases n <;> rfl
  | _ :: _, 0 => rfl
  | _ :: xs, n + 1 => get?_map_eq f xs n

theorem assocLookup_set_self {α : Type} : ∀ (m : List (String × α)) (k : String) (v : α),
    assocLookup (assocSet m k v) k = some v
  | [], k, v => by simp [assocSet, assocLookup]
  | (k1, v1) :: rest, k, v => by
      by_cases h : k1 = k
      · simp [assocSet, h, assocLookup]
      · simp [assocSet, h, assocLookup, assocLookup_set_self rest k v]

theorem assocLookup_set_ne {α : Type} : ∀ (m : List (String × α)) (k k2 : String) (v : α),
    k2 ≠ k → assocLookup (assocSet m k v) k2 = assocLookup m k2
  | [], k, k2, v, h => by
      have hne : ¬k = k2 := fun hh => h hh.symm
      simp [assocSet, assocLookup, hne]
  | (k1, v1) :: rest, k, k2, v, h => by
      by_cases h1 : k1 = k
      · subst h1
        have hne : ¬k1 = k2 := fun hh => h hh.symm
        simp [assocSet, assocLookup, hne]
      · simp only [assocSet, if_neg h1, assocLookup]
        by_cases h2 : k1 = k2
        · simp [h2]
        · simp [h2, assocLookup_set_ne rest k k2 v h]

/-! ## String lemmas -/

theorem str_append_cancel {p a b : String} (h : p ++ a = p ++ b) : a = b := by
  apply String.ext
  have h2 := congrArg String.data h
  rw [String.data_append, String.data_append] at h2
  exact List.append_cancel_left h2

theorem bind_data_assoc (k : String) : "bind-" ++ ("data-" ++ k) = "bind-data-" ++ k := by
  rw [← String.append_assoc]
  exact congrArg (· ++ k) (by decide)

/-! ## Node- and element-level lemmas -/

theorem updateNode_name (nm : String) (v : JSVal) (n : Node) :
    (updateNode nm v n).name = n.name := by
  unfold updateNode; split <;> rfl

theorem updateNode_of_ne {nm : String} {v : JSVal} {n : Node}
    (h : n.name ≠ some ("bind-" ++ nm)) : updateNode nm v n = n := by
  simp [updateNode, h]

theorem updateNode_idem (nm : String) (v : JSVal) (n : Node) :
    updateNode nm v (updateNode nm v n) = updateNode nm v n := by
  by_cases h : n.name = some ("bind-" ++ nm)
  · simp [updateNode, h]
  · simp [updateNode, h]

theorem updateNode_fields {nm : String} {v : JSVal} {n : Node}
    (h : (updateNode nm v n).name = some ("bind-" ++ nm)) :
    (updateNode nm v n).textContent = v ∧ (updateNode nm v n).val = v := by
  rw [updateNode_name] at h
  simp [updateNode, h]

theorem map_update_idem (nm : String) (v : JSVal) : ∀ (l : List Node),
    (l.map (updateNode nm v)).map (updateNode nm v) = l.map (updateNode nm v)
  | [] => rfl
  | n :: rest => by simp [List.map, updateNode_idem, map_update_idem nm v rest]

theorem syncEl_idem (nm : String) (v : JSVal) (el : Element) :
    syncEl nm v (syncEl nm v el) = syncEl nm v el := by
  cases el
  simp only [syncEl]
  rw [map_update_idem]

theorem syncEl_bound {nm : String} {v : JSVal} {el : Element} :
    ∀ n ∈ (syncEl nm v el).shadowRoot, n.name = some ("bind-" ++ nm) →
      n.textContent = v ∧ n.val = v := by
  intro n hn hname
  obtain ⟨m, _, rfl⟩ := List.mem_map.mp hn
  exact updateNode_fields hname

theorem syncEl_get_ne {nm : String} {v : JSVal} {el : Element} {i : Nat} {n : Node}
    (h : el.shadowRoot.get? i = some n) (hne : n.name ≠ some ("bind-" ++ nm)) :
    (syncEl nm v el).shadowRoot.get? i = some n := by
  show (el.shadowRoot.map (updateNode nm v)).get? i = some n
  rw [get?_map_eq, h]
  simp [updateNode_of_ne hne]

/-! ## The reachability invariant of one callback run

A single `attributeChangedCallback` run (recursive fan-out included) passes
one fixed attribute name and one fixed new value to everything it touches, so
each element of the world either stays as it was or gets exactly its
`bind-<name>` nodes overwritten with that value. -/

theorem reaches_refl (nm : String) (v : JSVal) (w : World) : Reaches nm v w w :=
  fun _ => Or.inl rfl

theorem opt_sync_idem (nm : String) (v : JSVal) : ∀ (o : Option Element),
    (o.map (syncEl nm v)).map (syncEl nm v) = o.map (syncEl nm v)
  | none => rfl
  | some el => congrArg some (syncEl_idem nm v el)

theorem reaches_trans {nm : String} {v : JSVal} {w w1 w2 : World}
    (h1 : Reaches nm v w w1) (h2 : Reaches nm v w1 w2) : Reaches nm v w w2 := by
  intro i
  rcases h2 i with h | h <;> rcases h1 i with h0 | h0
  · exact Or.inl (h.trans h0)
  · exact Or.inr (h.trans h0)
  · rw [h, h0]; exact Or.inr rfl
  · rw [h, h0]; exact Or.inr (opt_sync_idem nm v _)

theorem reaches_set {nm : String} {v : JSVal} {w : World} {self : Nat} {el : Element}
    (hel : w.get? self = some el) : Reaches nm v w (w.set self (syncEl nm v el)) := by
  intro i
  by_cases h : self = i
  · subst h
    right
    rw [get?_set_self w self _ (get?_some_lt w self el hel), hel]
    rfl
  · exact Or.inl (get?_set_ne w self i _ h)

theorem reaches_preserves {nm : String} {v : JSVal} {w w2 : World} {self : Nat} {el : Element}
    (h : Reaches nm v w w2) (hel : w.get? self = some (syncEl nm v el)) :
    w2.get? self = some (syncEl nm v el) := by
  rcases h self with h2 | h2
  · rw [h2, hel]
  · rw [h2, hel]
    exact congrArg some (syncEl_idem nm v el)

theorem reaches_notifyList (nm : String) (o v : JSVal) (src : Nat)
    (f : World → Nat → World × List Event)
    (hf : ∀ w s, Reaches nm v w (f w s).1) :
    ∀ (subs : List Nat) (w : World), Reaches nm v w (notifyList f nm o v src w subs).1
  | [], w => reaches_refl nm v w
  | s :: rest, w => by
      have h1 := hf w s
      have h2 := reaches_notifyList nm o v src f hf rest (f w s).1
      have heq : (notifyList f nm o v src w (s :: rest)).1
          = (notifyList f nm o v src (f w s).1 rest).1 := rfl
      rw [heq]
      exact reaches_trans h1 h2

theorem reaches_acb (nm : String) (o v : JSVal) :
    ∀ (fuel : Nat) (w : World) (self : Nat) (src : Option Nat),
      Reaches nm v w (attributeChangedCallback fuel w self nm o v src).1 := by
  intro fuel
  induction fuel with
  | zero => intro w self src; exact reaches_refl nm v w
  | succ f ih =>
      intro w self src
      by_cases hvo : v = o
      · simp only [attributeChangedCallback, if_pos hvo]
        exact reaches_refl nm v w
      · cases hel : w.get? self with
        | none =>
            simp only [attributeChangedCallback, if_neg hvo, hel]
            exact reaches_refl nm v w
        | some el =>
            cases hm : el.subscribers with
            | none =>
                simp only [attributeChangedCallback, if_neg hvo, hel, hm]
                exact reaches_set hel
            | some m =>
                cases hs : assocLookup m nm with
                | none =>
                    simp only [attributeChangedCallback, if_neg hvo, hel, hm, hs]
                    exact reaches_set hel
                | some subs =>
                    simp only [attributeChangedCallback, if_neg hvo, hel, hm, hs]
                    exact reaches_trans (reaches_set hel)
                      (reaches_notifyList nm o v self _
                        (fun w2 s => ih w2 s (some self)) subs _)

/-- After one callback step with a genuinely new value, the element itself is
exactly its old self with all `bind-<nm>` nodes synced to `v`, whatever the
subscriber fan-out did afterwards. -/
theorem acb_self_eq {f : Nat} {w : World} {self : Nat} {nm : String} {o v : JSVal}
    {src : Option Nat} {el : Element} (hne : v ≠ o) (hel : w.get? self = some el) :
    (attributeChangedCallback (f + 1) w self nm o v src).1.get? self
      = some (syncEl nm v el) := by
  have hset : (w.set self (syncEl nm v el)).get? self = some (syncEl nm v el) :=
    get?_set_self w self _ (get?_some_lt w self el hel)
  cases hm : el.subscribers with
  | none =>
      simp only [attributeChangedCallback, if_neg hne, hel, hm]
      exact hset
  | some m =>
      cases hs : assocLookup m nm with
      | none =>
          simp only [attributeChangedCallback, if_neg hne, hel, hm, hs]
          exact hset
      | some subs =>
          simp only [attributeChangedCallback, if_neg hne, hel, hm, hs]
          exact reaches_preserves
            (reaches_notifyList nm o v self _
              (fun w2 s => reaches_acb nm o v f w2 s (some self)) subs _) hset

/-- A callback on an element with no subscriber registry is just the DOM
update of that element. -/
theorem acb_nosubs {f : Nat} {w : World} {self : Nat} {nm : String} {o v : JSVal}
    {src : Option Nat} {el : Element} (hne : v ≠ o) (hel : w.get? self = some el)
    (hm : el.subscribers = none) :
    (attributeChangedCallback (f + 1) w self nm o v src).1
      = w.set self (syncEl nm v el) := by
  simp only [attributeChangedCallback, if_neg hne, hel, hm]

/-! ## The claims -/

/-- C1: for every attribute-change notification with name `nm`, old value `o`
and new value `v` with `v ≠ o`, after the call returns every node of the
element's render scope whose `name` attribute equals `bind-<nm>` has both its
text content and its value property equal to `v` — all matching nodes,
including several sharing the name. -/
theorem c1_bound_nodes_updated (f : Nat) (w : World) (self : Nat) (nm : String)
    (o v : JSVal) (src : Option Nat) (el : Element)
    (hne : v ≠ o) (hel : w.get? self = some el) :
    ∃ el2, (attributeChangedCallback (f + 1) w self nm o v src).1.get? self = some el2 ∧
      ∀ n ∈ el2.shadowRoot, n.name = some ("bind-" ++ nm) →
        n.textContent = v ∧ n.val = v :=
  ⟨syncEl nm v el, acb_self_eq hne hel, syncEl_bound⟩

theorem c1_witness :
    ∃ el2, (attributeChangedCallback 1 demoWorld 0 "data-spam" JSVal.null
        (JSVal.str "42") none).1.get? 0 = some el2 ∧
      ∀ n ∈ el2.shadowRoot, n.name = some ("bind-" ++ "data-spam") →
        n.textContent = JSVal.str "42" ∧ n.val = JSVal.str "42" :=
  c1_bound_nodes_updated 0 demoWorld 0 "data-spam" JSVal.null (JSVal.str "42") none demoEl
    (by decide) rfl

/-- C2: when the new value equals the old value (`===` on this value fragment,
the both-absent cases included), the notification returns immediately as a
no-op: the world is unchanged (no render-scope node is mutated) and the event
trace is empty (no DOM write, no subscriber notification). -/
theorem c2_noop_on_equal (fuel : Nat) (w : World) (self : Nat) (nm : String)
    (v : JSVal) (src : Option Nat) :
    attributeChangedCallback fuel w self nm v v src = (w, []) := by
  cases fuel with
  | zero => rfl
  | succ f => simp [attributeChangedCallback]

theorem notifyList_dfvisit (f : Nat) (nm : String) (o v : JSVal) (src : Nat) :
    ∀ (subs : List Nat) (w : World),
      DFVisit f nm o v src w subs
        (notifyList (fun w2 s => attributeChangedCallback f w2 s nm o v (some src))
          nm o v src w subs).2
        (notifyList (fun w2 s => attributeChangedCallback f w2 s nm o v (some src))
          nm o v src w subs).1
  | [], w => DFVisit.nil w
  | s :: rest, w =>
      DFVisit.cons w _ _ s rest _ _ rfl
        (notifyList_dfvisit f nm o v src rest
          (attributeChangedCallback f w s nm o v (some src)).1)

/-- C3: within one notification call with a genuinely new value, the trace is
exactly the DOM writes to the matching bound nodes followed by the subscriber
phase; the subscriber phase visits the registered subscribers in registration
order, depth-first and synchronously: each visit is a `notify` event carrying
the attribute name, old value, new value and this element as source,
immediately followed by the complete trace of that subscriber's own callback
run, whose resulting world feeds the next visit. -/
theorem c3_dom_then_subscribers_in_order (f : Nat) (w : World) (self : Nat) (nm : String)
    (o v : JSVal) (src : Option Nat) (el : Element) (m : List (String × List Nat))
    (subs : List Nat) (hne : v ≠ o) (hel : w.get? self = some el)
    (hm : el.subscribers = some m) (hs : assocLookup m nm = some subs) :
    ∃ (tail : List Event) (w2 : World),
      attributeChangedCallback (f + 1) w self nm o v src
        = (w2, domWrites self nm v 0 el.shadowRoot ++ tail) ∧
      DFVisit f nm o v self (w.set self (syncEl nm v el)) subs tail w2 := by
  refine ⟨_, _, ?_, notifyList_dfvisit f nm o v self subs (w.set self (syncEl nm v el))⟩
  simp only [attributeChangedCallback, if_neg hne, hel, hm, hs]

theorem c3_witness :
    ∃ (tail : List Event) (w2 : World),
      attributeChangedCallback 2 chainWorld 0 "data-x" JSVal.null (JSVal.str "1") none
        = (w2, domWrites 0 "data-x" (JSVal.str "1") 0 chainPub.shadowRoot ++ tail) ∧
      DFVisit 1 "data-x" JSVal.null (JSVal.str "1") 0
        (chainWorld.set 0 (syncEl "data-x" (JSVal.str "1") chainPub)) [1, 2] tail w2 :=
  c3_dom_then_subscribers_in_order 1 chainWorld 0 "data-x" JSVal.null (JSVal.str "1") none
    chainPub [("data-x", [1, 2])] [1, 2] (by decide) rfl rfl rfl

/-- C6 is false of the code: the callback's DOM sync is keyed on `bind-<name>`
for any notified name, whether or not it matches the `data-` + lowercase
pattern.  Concretely, with `somethingElse` declared observed and a
render-scope node named `bind-somethingElse`, a change notification for
`somethingElse` from `null` to `"new"` does sync that node (so the world
changes). -/
theorem c6_counterexample :
    (attributeChangedCallback 1 oddWorld 0 "somethingElse" JSVal.null
        (JSVal.str "new") none).1
      = [{ oddEl with shadowRoot :=
            [{ oddNode with textContent := JSVal.str "new", val := JSVal.str "new" }] }] ∧
    (attributeChangedCallback 1 oddWorld 0 "somethingElse" JSVal.null
        (JSVal.str "new") none).1 ≠ oddWorld :=
  ⟨by decide, by decide⟩

/-- C6 (amended): a declared observed attribute that does not match the
`data-` + lowercase-word pattern still receives the automatic DOM sync — a
change notification for `somethingElse` with a new value updates every
render-scope node named `bind-somethingElse`.  The pattern restriction
governs the change-event reflection direction (input back into attributes),
not the callback's attribute-to-DOM sync. -/
theorem c6_amended_nonpattern_syncs (f : Nat) (w : World) (self : Nat) (o v : JSVal)
    (src : Option Nat) (el : Element) (hne : v ≠ o) (hel : w.get? self = some el) :
    ∃ el2, (attributeChangedCallback (f + 1) w self "somethingElse" o v src).1.get? self
        = some el2 ∧
      ∀ n ∈ el2.shadowRoot, n.name = some "bind-somethingElse" →
        n.textContent = v ∧ n.val = v := by
  refine ⟨syncEl "somethingElse" v el, acb_self_eq hne hel, ?_⟩
  intro n hn hname
  apply syncEl_bound n hn
  rw [hname]
  decide

theorem c6_witness :
    ∃ el2, (attributeChangedCallback 1 oddWorld 0 "somethingElse" JSVal.null
        (JSVal.str "new") none).1.get? 0 = some el2 ∧
      ∀ n ∈ el2.shadowRoot, n.name = some "bind-somethingElse" →
        n.textContent = JSVal.str "new" ∧ n.val = JSVal.str "new" :=
  c6_amended_nonpattern_syncs 0 oddWorld 0 JSVal.null (JSVal.str "new") none oddEl
    (by decide) rfl

/-- C7: a notification for attribute `nm` never mutates a render-scope node
whose `name` is not `bind-<nm>`: whatever the old and new values (equal or
not) and however deep the fan-out, every such node of the element is exactly
as before, and no node is added or removed. -/
theorem c7_unbound_nodes_untouched (fuel : Nat) (w : World) (self : Nat) (nm : String)
    (o v : JSVal) (src : Option Nat) (el : Element) (hel : w.get? self = some el) :
    ∃ el2, (attributeChangedCallback fuel w self nm o v src).1.get? self = some el2 ∧
      el2.shadowRoot.length = el.shadowRoot.length ∧
      ∀ i n, el.shadowRoot.get? i = some n → n.name ≠ some ("bind-" ++ nm) →
        el2.shadowRoot.get? i = some n := by
  rcases reaches_acb nm o v fuel w self src self with h | h
  · exact ⟨el, by rw [h]; exact hel, rfl, fun i n hn _ => hn⟩
  · refine ⟨syncEl nm v el, by rw [h, hel]; rfl, List.length_map el.shadowRoot _, ?_⟩
    intro i n hn hne
    exact syncEl_get_ne hn hne

theorem c7_witness :
    ∃ el2, (attributeChangedCallback 1 demoWorld 0 "data-spam" JSVal.null
        (JSVal.str "42") none).1.get? 0 = some el2 ∧
      el2.shadowRoot.length = demoEl.shadowRoot.length ∧
      ∀ i n, demoEl.shadowRoot.get? i = some n → n.name ≠ some ("bind-" ++ "data-spam") →
        el2.shadowRoot.get? i = some n :=
  c7_unbound_nodes_untouched 1 demoWorld 0 "data-spam" JSVal.null (JSVal.str "42") none
    demoEl rfl

/-- C9: `observeAttribute` appends the subscriber to the end of the given
attribute's subscriber list, creating the registry and the list when absent;
registering the same subscriber twice yields two entries (no deduplication);
the operation is total (no error) and returns the updated element, so calls
chain. -/
theorem c9_observe_appends (e : Element) (nm : String) (s : Nat) :
    ∃ m2, (observeAttribute e nm s).subscribers = some m2 ∧
      assocLookup m2 nm = some (subsOf e nm ++ [s]) ∧
      ∃ m3, (observeAttribute (observeAttribute e nm s) nm s).subscribers = some m3 ∧
        assocLookup m3 nm = some (subsOf e nm ++ [s] ++ [s]) := by
  have key : ∀ (e2 : Element), ∃ m2, (observeAttribute e2 nm s).subscribers = some m2 ∧
      assocLookup m2 nm = some (subsOf e2 nm ++ [s]) := by
    intro e2
    cases hm : e2.subscribers with
    | none =>
        refine ⟨assocSet [] nm [s], ?_, ?_⟩
        · simp [observeAttribute, hm, assocLookup]
        · simp [subsOf, hm, assocLookup_set_self]
    | some m =>
        cases hl : assocLookup m nm with
        | none =>
            refine ⟨assocSet m nm [s], ?_, ?_⟩
            · simp [observeAttribute, hm, hl]
            · simp [subsOf, hm, hl, assocLookup_set_self]
        | some l =>
            refine ⟨assocSet m nm (l ++ [s]), ?_, ?_⟩
            · simp [observeAttribute, hm, hl]
            · simp [subsOf, hm, hl, assocLookup_set_self]
  obtain ⟨m2, hm2, hl2⟩ := key e
  obtain ⟨m3, hm3, hl3⟩ := key (observeAttribute e nm s)
  refine ⟨m2, hm2, hl2, m3, hm3, ?_⟩
  rw [hl3]
  have hsub : subsOf (observeAttribute e nm s) nm = subsOf e nm ++ [s] := by
    simp [subsOf, hm2, hl2]
  rw [hsub]

/-- C10: registration for attribute `nm` changes nothing but `nm`'s own
subscriber list: no render-scope node, no attribute, no observed list, and —
order and multiplicity included — no other attribute's subscriber list. -/
theorem c10_observe_frame (e : Element) (nm : String) (s : Nat) (nm2 : String)
    (hne : nm2 ≠ nm) :
    (observeAttribute e nm s).shadowRoot = e.shadowRoot ∧
    (observeAttribute e nm s).dataset = e.dataset ∧
    (observeAttribute e nm s).observed = e.observed ∧
    subsOf (observeAttribute e nm s) nm2 = subsOf e nm2 ∧
    ∀ m2 m3, e.subscribers = some m2 → (observeAttribute e nm s).subscribers = some m3 →
      assocLookup m3 nm2 = assocLookup m2 nm2 := by
  refine ⟨rfl, rfl, rfl, ?_, ?_⟩
  · cases hm : e.subscribers with
    | none =>
        have hcond : ¬nm = nm2 := fun hh => hne hh.symm
        simp [subsOf, observeAttribute, hm, assocLookup, assocSet, hcond]
    | some m =>
        cases hl : assocLookup m nm with
        | none =>
            have hlook := assocLookup_set_ne m nm nm2 [s] hne
            simp [subsOf, observeAttribute, hm, hl, hlook]
        | some l =>
            have hlook := assocLookup_set_ne m nm nm2 (l ++ [s]) hne
            simp [subsOf, observeAttribute, hm, hl, hlook]
  · intro m2 m3 hm2 hm3
    have : (observeAttribute e nm s).subscribers
        = some (assocSet m2 nm (subsOf e nm ++ [s])) := by
      cases hl : assocLookup m2 nm with
      | none => simp [observeAttribute, hm2, hl, subsOf]
      | some l => simp [observeAttribute, hm2, hl, subsOf]
    rw [this] at hm3
    cases hm3
    exact assocLookup_set_ne m2 nm nm2 _ hne

theorem c10_witness :
    (observeAttribute demoEl "data-x" 1).shadowRoot = demoEl.shadowRoot ∧
    (observeAttribute demoEl "data-x" 1).dataset = demoEl.dataset ∧
    (observeAttribute demoEl "data-x" 1).observed = demoEl.observed ∧
    subsOf (observeAttribute demoEl "data-x" 1) "data-y" = subsOf demoEl "data-y" ∧
    ∀ m2 m3, demoEl.subscribers = some m2 →
      (observeAttribute demoEl "data-x" 1).subscribers = some m3 →
      assocLookup m3 "data-y" = assocLookup m2 "data-y" :=
  c10_observe_frame demoEl "data-x" 1 "data-y" (by decide)

/-- A successful regex match decomposes the name: the string is literally
`bind-data-` followed by the (all-lowercase) capture group. -/
theorem bindSuffix_sound {s suf : String} (h : bindSuffix s = some suf) :
    s = "bind-data-" ++ suf ∧ suf.data.all isLowerAZ = true := by
  unfold bindSuffix at h
  split at h
  · rename_i h1
    split at h
    · rename_i h2
      injection h with h3
      subst h3
      refine ⟨?_, h2⟩
      apply String.ext
      rw [String.data_append]
      show s.data = "bind-data-".data ++ s.data.drop 10
      rw [← h1]
      exact (List.take_append_drop 10 s.data).symm
    · exact absurd h (by simp)
  · exact absurd h (by simp)

/-- C8: a change event whose originating element has no name (absent or
empty), or whose name is not exactly `bind-data-` followed by one or more
lowercase letters (for example the mixed-case `bind-data-highScore`, or
`bind-data-` with an empty suffix), is silently ignored by the change
listener: no attribute is written and no binding update is triggered — the
world is returned unchanged — and the listener is a total function, so no
error is raised. -/
theorem c8_unmatched_name_ignored (fuel : Nat) (w : World) (id : Nat)
    (tName : Option String) (tValue : String)
    (h : ∀ s : String, tName = some s →
      ∀ t : String, t ≠ "" → t.data.all isLowerAZ = true → s ≠ "bind-data-" ++ t) :
    handleChange fuel w id tName tValue = w := by
  cases tName with
  | none => rfl
  | some s =>
      by_cases hs : s = ""
      · simp [handleChange, hs]
      · cases hbs : bindSuffix s with
        | none => simp [handleChange, hs, hbs]
        | some suf =>
            by_cases hsuf : suf = ""
            · simp [handleChange, hs, hbs, hsuf]
            · obtain ⟨heq, hall⟩ := bindSuffix_sound hbs
              exact absurd heq (h s rfl suf hsuf hall)

theorem c8_witness :
    handleChange 1 demoWorld 0 (some "bind-data-highScore") "9" = demoWorld :=
  c8_unmatched_name_ignored 1 demoWorld 0 (some "bind-data-highScore") "9" (by
    intro s hs t ht hall heq
    cases hs
    have h4 : t.data = "highScore".data := by
      have h5 : "bind-data-".data ++ t.data = "bind-data-".data ++ "highScore".data := by
        rw [← String.data_append, ← heq]
        decide
      exact List.append_cancel_left h5
    rw [h4] at hall
    exact absurd hall (by decide))

/-- C4: a change event from a render-scope node named `bind-data-spam` with
value `"42"` writes `"42"` into the host's `data-spam` attribute, and — via
the runtime's attribute-observation delivery, modelled from the spec — this
triggers the attribute-change notification, so every render-scope node named
`bind-data-spam` (the bound siblings included) ends up with text content and
value `"42"`.  Hypotheses: `data-spam` is declared observed (the spec's
delivery only covers observed attributes) and its previous value differs from
`"42"` (otherwise the notification no-ops, per the spec's own idempotence
guarantee). -/
theorem c4_change_event_reflects (f : Nat) (w : World) (id : Nat) (el : Element)
    (hel : w.get? id = some el) (hobs : "data-spam" ∈ el.observed)
    (hold : assocLookup el.dataset "spam" ≠ some "42") :
    ∃ el2, (handleChange (f + 1) w id (some "bind-data-spam") "42").get? id = some el2 ∧
      assocLookup el2.dataset "spam" = some "42" ∧
      ∀ n ∈ el2.shadowRoot, n.name = some "bind-data-spam" →
        n.textContent = JSVal.str "42" ∧ n.val = JSVal.str "42" := by
  have hbs : bindSuffix "bind-data-spam" = some "spam" := by decide
  have h1 : ("bind-data-spam" : String) ≠ "" := by decide
  have h2 : ("spam" : String) ≠ "" := by decide
  have hhc : handleChange (f + 1) w id (some "bind-data-spam") "42"
      = runtimeSetData (f + 1) w id "spam" "42" := by
    simp [handleChange, hbs, h1, h2]
  have happ : ("data-" ++ "spam" : String) = "data-spam" := by decide
  have hset : (w.set id (setDataset el "spam" "42")).get? id
      = some (setDataset el "spam" "42") :=
    get?_set_self w id _ (get?_some_lt w id el hel)
  obtain ⟨ov, hov, hovne⟩ : ∃ ov : JSVal,
      (match assocLookup el.dataset "spam" with
        | none => JSVal.null
        | some s => JSVal.str s) = ov ∧ JSVal.str "42" ≠ ov := by
    cases hdl : assocLookup el.dataset "spam" with
    | none => exact ⟨JSVal.null, rfl, by decide⟩
    | some s0 =>
        refine ⟨JSVal.str s0, rfl, ?_⟩
        intro hh
        injection hh with hh2
        exact hold (by rw [hdl, ← hh2])
  have hres : (runtimeSetData (f + 1) w id "spam" "42").get? id
      = some (syncEl "data-spam" (JSVal.str "42") (setDataset el "spam" "42")) := by
    simp only [runtimeSetData, hel, hov, happ]
    rw [if_pos hobs]
    exact acb_self_eq hovne hset
  refine ⟨syncEl "data-spam" (JSVal.str "42") (setDataset el "spam" "42"),
    by rw [hhc]; exact hres, ?_, ?_⟩
  · show assocLookup (assocSet el.dataset "spam" "42") "spam" = some "42"
    exact assocLookup_set_self el.dataset "spam" "42"
  · intro n hn hname
    apply syncEl_bound n hn
    rw [hname]
    decide

theorem c4_witness :
    ∃ el2, (handleChange 1 demoWorld 0 (some "bind-data-spam") "42").get? 0 = some el2 ∧
      assocLookup el2.dataset "spam" = some "42" ∧
      ∀ n ∈ el2.shadowRoot, n.name = some "bind-data-spam" →
        n.textContent = JSVal.str "42" ∧ n.val = JSVal.str "42" :=
  c4_change_event_reflects 0 demoWorld 0 demoEl rfl (by decide) (by decide)

/-! ## Construction -/

/-- One constructor-loop iteration on an element without subscribers is the
pure per-element step: set the attribute, then sync its bound nodes. -/
theorem constructStep_pure (f : Nat) (id : Nat) (w : World) (kv : String × String)
    (el : Element) (hel : w.get? id = some el) (hsub : el.subscribers = none) :
    constructStep (f + 1) id w kv
      = w.set id (syncEl ("data-" ++ kv.1) (JSVal.str kv.2) (setDataset el kv.1 kv.2)) := by
  have hset : (w.set id (setDataset el kv.1 kv.2)).get? id = some (setDataset el kv.1 kv.2) :=
    get?_set_self w id _ (get?_some_lt w id el hel)
  have hsub2 : (setDataset el kv.1 kv.2).subscribers = none := hsub
  have hne : JSVal.str kv.2 ≠ JSVal.undef := fun hh => JSVal.noConfusion hh
  simp only [constructStep, hel]
  rw [acb_nosubs hne hset hsub2, List.set_set]

theorem construct_fold (f : Nat) (id : Nat) :
    ∀ (config : List (String × String)) (w : World) (el : Element),
      w.get? id = some el → el.subscribers = none →
      (config.foldl (constructStep (f + 1) id) w).get? id = some (applyConfig config el) ∧
      ∀ j, j ≠ id → (config.foldl (constructStep (f + 1) id) w).get? j = w.get? j
  | [], w, el, hel, _ => ⟨hel, fun _ _ => rfl⟩
  | kv :: rest, w, el, hel, hsub => by
      have hstep := constructStep_pure f id w kv el hel hsub
      have hel2 : (constructStep (f + 1) id w kv).get? id
          = some (syncEl ("data-" ++ kv.1) (JSVal.str kv.2) (setDataset el kv.1 kv.2)) := by
        rw [hstep]
        exact get?_set_self w id _ (get?_some_lt w id el hel)
      have hsub2 : (syncEl ("data-" ++ kv.1) (JSVal.str kv.2)
          (setDataset el kv.1 kv.2)).subscribers = none := hsub
      obtain ⟨ih1, ih2⟩ := construct_fold f id rest (constructStep (f + 1) id w kv) _ hel2 hsub2
      refine ⟨ih1, ?_⟩
      intro j hj
      have h3 := ih2 j hj
      calc ((kv :: rest).foldl (constructStep (f + 1) id) w).get? j
          = (constructStep (f + 1) id w kv).get? j := h3
        _ = w.get? j := by
            rw [hstep]
            exact get?_set_ne w id j _ (fun hh => hj hh.symm)

theorem goodBind_init (k v : String) (el : Element) :
    GoodBind k v (syncEl ("data-" ++ k) (JSVal.str v) (setDataset el k v)) := by
  constructor
  · show assocLookup (assocSet el.dataset k v) k = some v
    exact assocLookup_set_self el.dataset k v
  · intro n hn hname
    apply syncEl_bound n hn
    rw [hname, bind_data_assoc]

theorem goodBind_step {k v : String} (k1 v1 : String) {el : Element} (hne : k1 ≠ k)
    (h : GoodBind k v el) :
    GoodBind k v (syncEl ("data-" ++ k1) (JSVal.str v1) (setDataset el k1 v1)) := by
  obtain ⟨hd, hn⟩ := h
  constructor
  · show assocLookup (assocSet el.dataset k1 v1) k = some v
    rw [assocLookup_set_ne el.dataset k1 k v1 (fun hh => hne hh.symm)]
    exact hd
  · intro n hn2 hname
    obtain ⟨n0, hn0, rfl⟩ := List.mem_map.mp hn2
    rw [updateNode_name] at hname
    have hdiff : n0.name ≠ some ("bind-" ++ ("data-" ++ k1)) := by
      rw [hname, bind_data_assoc]
      intro hh
      injection hh with hh2
      exact hne (str_append_cancel hh2).symm
    rw [updateNode_of_ne hdiff]
    exact hn n0 hn0 hname

theorem goodBind_applyConfig {k v : String} :
    ∀ (rest : List (String × String)) (el : Element),
      k ∉ rest.map Prod.fst → GoodBind k v el → GoodBind k v (applyConfig rest el)
  | [], _, _, h => h
  | kv :: rest, el, hk, h => by
      have hk1 : kv.1 ≠ k := fun hh => hk (by simp [hh])
      have hk2 : k ∉ rest.map Prod.fst := fun hh => hk (List.mem_cons_of_mem kv.1 hh)
      exact goodBind_applyConfig rest _ hk2 (goodBind_step kv.1 kv.2 hk1 h)

theorem goodBind_mem :
    ∀ (config : List (String × String)) (el : Element),
      (config.map Prod.fst).Nodup → ∀ k v, (k, v) ∈ config →
      GoodBind k v (applyConfig config el)
  | [], _, _, k, v, hkv => absurd hkv (List.not_mem_nil _)
  | kv :: rest, el, hnd, k, v, hkv => by
      rw [List.map_cons, List.nodup_cons] at hnd
      rcases List.mem_cons.mp hkv with hh | hh
      · subst hh
        exact goodBind_applyConfig rest _ hnd.1 (goodBind_init k v el)
      · exact goodBind_mem rest _ hnd.2 k v hh

/-- C5: construction with a configuration mapping sets, for each key `k` with
value `v` in it, the `data-<k>` attribute of the new element to `v`, and the
constructor's explicit `attributeChangedCallback('data-<k>', undefined, v)`
call populates every render-scope node named `bind-data-<k>` with `v`; no
native attribute-observation delivery is involved (none is modelled during
construction — the explicit call alone produces the binding).  The keys of a
configuration object are distinct, hence the `Nodup` hypothesis. -/
theorem c5_construction_applies_config (f : Nat) (w : World) (tmpl : List Node)
    (obs : List String) (config : List (String × String))
    (hnd : (config.map Prod.fst).Nodup) (k v : String) (hkv : (k, v) ∈ config) :
    ∃ el2, (constructElement (f + 1) w tmpl obs config).get? w.length = some el2 ∧
      assocLookup el2.dataset k = some v ∧
      ∀ n ∈ el2.shadowRoot, n.name = some ("bind-data-" ++ k) →
        n.textContent = JSVal.str v ∧ n.val = JSVal.str v := by
  have hel0 : (w ++ [initElement tmpl obs]).get? w.length = some (initElement tmpl obs) :=
    get?_concat_len w _
  obtain ⟨h1, _⟩ := construct_fold f w.length config (w ++ [initElement tmpl obs])
    (initElement tmpl obs) hel0 rfl
  obtain ⟨hd, hn⟩ := goodBind_mem config (initElement tmpl obs) hnd k v hkv
  exact ⟨applyConfig config (initElement tmpl obs), h1, hd, hn⟩

theorem c5_witness :
    ∃ el2, (constructElement 1 [] demoTmpl ["data-spam", "data-eggs"]
        [("spam", "1"), ("eggs", "2")]).get? 0 = some el2 ∧
      assocLookup el2.dataset "spam" = some "1" ∧
      ∀ n ∈ el2.shadowRoot, n.name = some ("bind-data-" ++ "spam") →
        n.textContent = JSVal.str "1" ∧ n.val = JSVal.str "1" :=
  c5_construction_applies_config 0 [] demoTmpl ["data-spam", "data-eggs"]
    [("spam", "1"), ("eggs", "2")] (by decide) "spam" "1" (by decide)

end BaseComponent
